import Mathlib

/-!
Verification of the employee performance report generator
(`src/report_generator.py`), a linear batch pipeline:
existence check → CSV load → aggregate statistics → department averages
→ render → write.

The Python source is shallowly embedded: employee dicts become a structure,
Python dicts (insertion-ordered) become association lists, `statistics.mean`
becomes exact rational division, `round(x, 2)` becomes round-half-to-even on
rationals scaled by 100, and fallible code returns `Option`/`Except`.
-/

namespace ReportGen

/-- One employee record, as built by `read_csv_data`:
`{"name": ..., "department": ..., "score": int(...)}`. -/
structure Employee where
  name : String
  department : String
  score : Int
deriving DecidableEq, Repr

/-- The dict returned by `calculate_statistics`. -/
structure Stats where
  total_employees : Nat
  average_score : ℚ
  highest_score : Int
  lowest_score : Int
deriving DecidableEq, Repr

/-- Round a rational to the nearest integer, ties to even
(Python's `round` on the exact value). -/
def roundHalfEven (q : ℚ) : Int :=
  let f : Int := ⌊q⌋
  let r : ℚ := q - f
  if r < 1/2 then f
  else if 1/2 < r then f + 1
  else if f % 2 = 0 then f else f + 1

/-- Python's `round(x, 2)`: round to two decimal places. -/
def round2 (q : ℚ) : ℚ := (roundHalfEven (q * 100) : ℚ) / 100

/-- The exact arithmetic mean of a list of integers (the value
`statistics.mean` computes on a non-empty list). -/
def avgQ (xs : List Int) : ℚ := (xs.sum : ℚ) / xs.length

/-- `statistics.mean` over a list of integer scores: the exact arithmetic
mean, undefined (`StatisticsError`) on the empty list. -/
def mean (xs : List Int) : Option ℚ :=
  if xs.isEmpty then none else some (avgQ xs)

/-- `calculate_statistics(employees)`: builds the scores list and the stats
dict; `statistics.mean`, `max` and `min` all raise on an empty list, so the
result is `none` exactly when `employees` is empty. -/
def calculate_statistics (employees : List Employee) : Option Stats :=
  let scores := employees.map (·.score)
  match mean scores, scores.max?, scores.min? with
  | some m, some mx, some mn =>
      some { total_employees := employees.length
             average_score := round2 m
             highest_score := mx
             lowest_score := mn }
  | _, _, _ => none

/-- Python dict assignment semantics on an association list with distinct
keys: `dept_data[dept].append(score)` after `dept_data[dept] = []` when the
key is new.  A present key keeps its position; a new key goes to the end. -/
def updateOrAppend (l : List (String × List Int)) (k : String) (s : Int) :
    List (String × List Int) :=
  match l with
  | [] => [(k, [s])]
  | (k', v) :: rest =>
      if k' = k then (k', v ++ [s]) :: rest
      else (k', v) :: updateOrAppend rest k s

/-- The `dept_data` dict built by the first loop of
`department_wise_average`. -/
def dept_data (employees : List Employee) : List (String × List Int) :=
  employees.foldl (fun acc emp => updateOrAppend acc emp.department emp.score) []

/-- `department_wise_average(employees)`: the second loop maps each
department's (necessarily non-empty) score list to
`round(statistics.mean(scores), 2)`. -/
def department_wise_average (employees : List Employee) :
    List (String × ℚ) :=
  (dept_data employees).map (fun p => (p.1, round2 ((p.2.sum : ℚ) / p.2.length)))

/-- Dict lookup on an association list. -/
def lookupList (l : List (String × α)) (k : String) : Option α :=
  (l.find? (fun p => p.1 = k)).map (·.2)

/-- First-seen order of the distinct elements of a list
(Python dict key insertion order). -/
def firstSeen (l : List String) : List String :=
  l.foldl (fun acc x => if x ∈ acc then acc else acc ++ [x]) []

/-- Scores of the employees in department `d`, in record order. -/
def scoresOf (employees : List Employee) (d : String) : List Int :=
  (employees.filter (fun e => e.department = d)).map (·.score)

/-! ### CSV loading -/

/-- One CSV data row as produced by `csv.DictReader`: an association of
column names to cell strings.  A required column can be absent (short row
or missing header column). -/
def Row : Type := List (String × String)

/-- Digits of a base-10 integer literal after the first digit, allowing a
single underscore between digits as Python's `int` does. -/
def digitsCore : Nat → List Char → Option Nat
  | acc, [] => some acc
  | _, ['_'] => none
  | acc, '_' :: c :: cs =>
      if c.isDigit then digitsCore (acc * 10 + (c.toNat - 48)) cs else none
  | acc, c :: cs =>
      if c.isDigit then digitsCore (acc * 10 + (c.toNat - 48)) cs else none

/-- A non-empty digit string (underscore separators allowed). -/
def parseDigits : List Char → Option Nat
  | [] => none
  | c :: cs => if c.isDigit then digitsCore (c.toNat - 48) cs else none

/-- ASCII whitespace stripped by Python's `int` before parsing. -/
def isPySpace (c : Char) : Bool :=
  c = ' ' || c = '\t' || c = '\n' || c = '\r' || c = '\x0b' || c = '\x0c'

/-- Strip leading and trailing whitespace from a character list. -/
def trimChars (cs : List Char) : List Char :=
  ((cs.dropWhile isPySpace).reverse.dropWhile isPySpace).reverse

/-- Python's `int(s)` on a string: optional surrounding whitespace, optional
sign, then base-10 digits; `none` models the `ValueError` raised when the
string does not parse as a base-10 integer. -/
def parseIntPy (s : String) : Option Int :=
  match trimChars s.data with
  | [] => none
  | c :: rest =>
      if c = '-' then (parseDigits rest).map (fun n => -(n : Int))
      else if c = '+' then (parseDigits rest).map (fun n => (n : Int))
      else (parseDigits (c :: rest)).map (fun n => (n : Int))

/-- The body of the `read_csv_data` loop for one row: `row["Name"]`,
`row["Department"]` and `int(row["Score"])`, each a `KeyError` /
`ValueError` (modelled as `Except.error`) when absent or unparseable. -/
def parseRow (row : Row) : Except String Employee :=
  match lookupList row "Name" with
  | none => .error "KeyError: Name"
  | some n =>
    match lookupList row "Department" with
    | none => .error "KeyError: Department"
    | some d =>
      match lookupList row "Score" with
      | none => .error "KeyError: Score"
      | some s =>
        match parseIntPy s with
        | none => .error "ValueError: invalid literal for int() with base 10"
        | some v => .ok { name := n, department := d, score := v }

/-- `read_csv_data`: appends one employee per row in order; the first
raising row aborts the loop, and the partially built list is discarded
when the exception propagates. -/
def read_csv_data : List Row → Except String (List Employee)
  | [] => .ok []
  | row :: rest =>
    match parseRow row with
    | .error e => .error e
    | .ok emp =>
      match read_csv_data rest with
      | .error e => .error e
      | .ok emps => .ok (emp :: emps)

/-- A row on which the `read_csv_data` loop body raises: a required column
is missing, or the `Score` cell does not parse as a base-10 integer. -/
def rowMalformed (row : Row) : Bool :=
  (lookupList row "Name").isNone ||
  (lookupList row "Department").isNone ||
  (match lookupList row "Score" with
   | none => true
   | some s => (parseIntPy s).isNone)

/-! ### Rendering and the pipeline controller -/

/-- Python's `str`/f-string rendering of the two-decimal-rounded float
averages the program prints (shortest decimal form, at least one decimal
digit), for rationals that are integer multiples of `1/100`. -/
def fmtRat (q : ℚ) : String :=
  let sign := if q < 0 then "-" else ""
  let a : ℚ := |q|
  let ip : Int := ⌊a⌋
  let cent : Int := ⌊(a - ip) * 100⌋
  if cent = 0 then sign ++ toString ip ++ ".0"
  else if cent % 10 = 0 then sign ++ toString ip ++ "." ++ toString (cent / 10)
  else sign ++ toString ip ++ "." ++ (if cent < 10 then "0" else "") ++ toString cent

/-- The date line written by `add_report_metadata`. -/
def dateLine (today : String) : String := "Report Generated On: " ++ today

/-- The logical sequence of text lines the renderer writes to the document:
page title, metadata date line, summary section, department section,
detailed table, conclusion.  Pagination and the repeated page header/footer
are a deterministic function of this sequence applied by the PDF library,
so the document is modelled at the line level. -/
def renderDoc (today : String) (stats : Stats) (dept_avg : List (String × ℚ))
    (employees : List Employee) : List String :=
  ["Employee Performance Analysis Report",
   dateLine today,
   "1. Summary Statistics",
   "Total Employees: " ++ toString stats.total_employees,
   "Average Score: " ++ fmtRat stats.average_score,
   "Highest Score: " ++ toString stats.highest_score,
   "Lowest Score: " ++ toString stats.lowest_score,
   "2. Department-wise Performance"]
  ++ dept_avg.map (fun p => p.1 ++ ": Average Score = " ++ fmtRat p.2)
  ++ ["3. Employee-wise Detailed Scores",
      "Name | Department | Score"]
  ++ employees.map (fun e => e.name ++ " | " ++ e.department ++ " | " ++ toString e.score)
  ++ ["4. Conclusion",
      "The overall average performance score of employees is " ++
        fmtRat stats.average_score ++
        ". Continuous monitoring and targeted improvements can help increase overall productivity."]

/-- The world `generate_report` runs against: the content of `data.csv`
when the path exists (`none` models a missing file), and the wall-clock
date already formatted as `"%B %d, %Y"`. -/
structure Env where
  dataFile : Option (List Row)
  today : String

/-- Outcome of one pipeline run: either the process terminated early
(uncaught exception or `exit()`), or it finished and wrote the rendered
document.  Either way it carries the diagnostics printed along the way. -/
inductive RunResult where
  | aborted (diagnostics : List String)
  | finished (diagnostics : List String) (output : List String)
deriving DecidableEq, Repr

/-- `generate_report`: existence check → load → aggregate statistics →
department averages → render → write, each stage aborting the run on
failure before any later stage executes. -/
def generate_report (env : Env) : RunResult :=
  match env.dataFile with
  | none => .aborted ["ERROR: data.csv not found!"]
  | some rows =>
    match read_csv_data rows with
    | .error e => .aborted ["data.csv found successfully.", e]
    | .ok employees =>
      match calculate_statistics employees with
      | none =>
          .aborted ["data.csv found successfully.", "CSV data read successfully.",
                    "StatisticsError: mean requires at least one data point"]
      | some stats =>
          .finished
            ["data.csv found successfully.", "CSV data read successfully.",
             "Statistics calculated successfully.", "Department-wise averages calculated.",
             "PDF report generated successfully!"]
            (renderDoc env.today stats (department_wise_average employees) employees)

/-- Erase the (run-dependent) metadata date line from a run's output,
leaving everything else. -/
def stripDate : RunResult → RunResult
  | .aborted d => .aborted d
  | .finished d o => .finished d (o.eraseIdx 1)

/-! ### State-passing embeddings (frame effects)

The source mutates no input: `calculate_statistics` and
`department_wise_average` only read `employees`.  The store-threading
versions below make that explicit: the record list is the store, each
statement receives it and passes it on, and no statement assigns to it or
to a record's fields. -/

/-- `calculate_statistics` with the store (the argument list) threaded
through and returned. -/
def calculate_statisticsS (employees : List Employee) :
    Option Stats × List Employee :=
  let scores := employees.map (·.score)
  let result :=
    match mean scores, scores.max?, scores.min? with
    | some m, some mx, some mn =>
        some { total_employees := employees.length
               average_score := round2 m
               highest_score := mx
               lowest_score := mn }
    | _, _, _ => none
  (result, employees)

/-- `department_wise_average` with the store threaded through both loops
and returned. -/
def department_wise_averageS (employees : List Employee) :
    List (String × ℚ) × List Employee :=
  let build :=
    employees.foldl
      (fun (p : List (String × List Int) × List Employee) emp =>
        (updateOrAppend p.1 emp.department emp.score, p.2))
      ([], employees)
  (build.1.map (fun p => (p.1, round2 ((p.2.sum : ℚ) / p.2.length))), build.2)

/-- How one pass of the `dept_data` loop over `es` extends the scores
already recorded for key `d` (specification helper for the fold). -/
def combineScores (o : Option (List Int)) (es : List Employee) (d : String) :
    Option (List Int) :=
  match o with
  | some xs => some (xs ++ scoresOf es d)
  | none =>
      if es.any (fun e => e.department = d) then some (scoresOf es d) else none

/-! ### Rounding lemmas -/

theorem roundHalfEven_le (q : ℚ) (n : Int) (h : q ≤ (n : ℚ)) :
    roundHalfEven q ≤ n := by
  have hf : ⌊q⌋ ≤ n := by
    have := Int.floor_le_floor h
    rwa [Int.floor_intCast] at this
  have hfq : (⌊q⌋ : ℚ) ≤ q := Int.floor_le q
  unfold roundHalfEven
  dsimp only
  split_ifs with h1 h2 h3
  · exact hf
  · -- the value rounds up, so the floor is strictly below `n`
    rcases lt_or_eq_of_le hf with hlt | heq
    · omega
    · exfalso
      have : q = (⌊q⌋ : ℚ) := le_antisymm (heq ▸ h) hfq
      rw [← this] at h2
      simp at h2
      linarith
  · exact hf
  · rcases lt_or_eq_of_le hf with hlt | heq
    · omega
    · exfalso
      have : q = (⌊q⌋ : ℚ) := le_antisymm (heq ▸ h) hfq
      have hr : q - (⌊q⌋ : ℚ) = 1/2 := le_antisymm (not_lt.mp h2) (not_lt.mp h1)
      rw [← this] at hr
      simp at hr

theorem le_roundHalfEven (q : ℚ) (n : Int) (h : (n : ℚ) ≤ q) :
    n ≤ roundHalfEven q := by
  have hf : n ≤ ⌊q⌋ := Int.le_floor.mpr h
  unfold roundHalfEven
  dsimp only
  split_ifs <;> omega

theorem round2_le (q : ℚ) (n : Int) (h : q ≤ (n : ℚ)) : round2 q ≤ (n : ℚ) := by
  have h100 : q * 100 ≤ ((100 * n : Int) : ℚ) := by push_cast; linarith
  have := roundHalfEven_le (q * 100) (100 * n) h100
  have hc : ((roundHalfEven (q * 100) : Int) : ℚ) ≤ ((100 * n : Int) : ℚ) :=
    Int.cast_le.mpr this
  unfold round2
  rw [div_le_iff₀ (by norm_num : (0:ℚ) < 100)]
  push_cast at hc ⊢
  linarith

theorem le_round2 (q : ℚ) (n : Int) (h : (n : ℚ) ≤ q) : (n : ℚ) ≤ round2 q := by
  have h100 : ((100 * n : Int) : ℚ) ≤ q * 100 := by push_cast; linarith
  have := le_roundHalfEven (q * 100) (100 * n) h100
  have hc : ((100 * n : Int) : ℚ) ≤ ((roundHalfEven (q * 100) : Int) : ℚ) :=
    Int.cast_le.mpr this
  unfold round2
  rw [le_div_iff₀ (by norm_num : (0:ℚ) < 100)]
  push_cast at hc ⊢
  linarith

/-! ### List min / max / sum lemmas -/

theorem foldl_min_le_init (l : List Int) : ∀ c : Int, l.foldl min c ≤ c := by
  induction l with
  | nil => intro c; simp
  | cons b t ih =>
      intro c
      calc (b :: t).foldl min c = t.foldl min (min c b) := by simp [List.foldl_cons]
        _ ≤ min c b := ih _
        _ ≤ c := min_le_left _ _

theorem foldl_min_le_mem (l : List Int) :
    ∀ (c x : Int), x ∈ l → l.foldl min c ≤ x := by
  induction l with
  | nil => intro c x hx; simp at hx
  | cons b t ih =>
      intro c x hx
      rcases List.mem_cons.mp hx with rfl | hx
      · calc (x :: t).foldl min c = t.foldl min (min c x) := by simp [List.foldl_cons]
          _ ≤ min c x := foldl_min_le_init t _
          _ ≤ x := min_le_right _ _
      · simpa [List.foldl_cons] using ih (min c b) x hx

theorem min?_le_mem (xs : List Int) (m : Int) (h : xs.min? = some m) :
    ∀ x ∈ xs, m ≤ x := by
  cases xs with
  | nil => simp [List.min?] at h
  | cons a t =>
      simp [List.min?] at h
      intro x hx
      rcases List.mem_cons.mp hx with rfl | hx
      · exact h ▸ foldl_min_le_init t x
      · exact h ▸ foldl_min_le_mem t a x hx

theorem init_le_foldl_max (l : List Int) : ∀ c : Int, c ≤ l.foldl max c := by
  induction l with
  | nil => intro c; simp
  | cons b t ih =>
      intro c
      calc c ≤ max c b := le_max_left _ _
        _ ≤ t.foldl max (max c b) := ih _
        _ = (b :: t).foldl max c := by simp [List.foldl_cons]

theorem mem_le_foldl_max (l : List Int) :
    ∀ (c x : Int), x ∈ l → x ≤ l.foldl max c := by
  induction l with
  | nil => intro c x hx; simp at hx
  | cons b t ih =>
      intro c x hx
      rcases List.mem_cons.mp hx with rfl | hx
      · calc x ≤ max c x := le_max_right _ _
          _ ≤ t.foldl max (max c x) := init_le_foldl_max t _
          _ = (x :: t).foldl max c := by simp [List.foldl_cons]
      · simpa [List.foldl_cons] using ih (max c b) x hx

theorem mem_le_max? (xs : List Int) (m : Int) (h : xs.max? = some m) :
    ∀ x ∈ xs, x ≤ m := by
  cases xs with
  | nil => simp [List.max?] at h
  | cons a t =>
      simp [List.max?] at h
      intro x hx
      rcases List.mem_cons.mp hx with rfl | hx
      · exact h ▸ init_le_foldl_max t x
      · exact h ▸ mem_le_foldl_max t a x hx

theorem length_mul_le_sum (xs : List Int) (a : Int) (h : ∀ x ∈ xs, a ≤ x) :
    (xs.length : Int) * a ≤ xs.sum := by
  induction xs with
  | nil => simp
  | cons b t ih =>
      have hb : a ≤ b := h b (List.mem_cons_self b t)
      have ht : (t.length : Int) * a ≤ t.sum :=
        ih (fun x hx => h x (List.mem_cons_of_mem b hx))
      simp only [List.length_cons, List.sum_cons]
      push_cast
      linarith

theorem sum_le_length_mul (xs : List Int) (a : Int) (h : ∀ x ∈ xs, x ≤ a) :
    xs.sum ≤ (xs.length : Int) * a := by
  induction xs with
  | nil => simp
  | cons b t ih =>
      have hb : b ≤ a := h b (List.mem_cons_self b t)
      have ht : t.sum ≤ (t.length : Int) * a :=
        ih (fun x hx => h x (List.mem_cons_of_mem b hx))
      simp only [List.length_cons, List.sum_cons]
      push_cast
      linarith

/-! ### `calculate_statistics` characterization -/

theorem mean_eq_some (xs : List Int) (h : xs ≠ []) :
    mean xs = some (avgQ xs) := by
  simp [mean, h]

theorem exists_max?_of_ne_nil (xs : List Int) (h : xs ≠ []) :
    ∃ m, xs.max? = some m := by
  cases xs with
  | nil => exact absurd rfl h
  | cons a t => exact ⟨t.foldl max a, rfl⟩

theorem exists_min?_of_ne_nil (xs : List Int) (h : xs ≠ []) :
    ∃ m, xs.min? = some m := by
  cases xs with
  | nil => exact absurd rfl h
  | cons a t => exact ⟨t.foldl min a, rfl⟩

theorem calculate_statistics_eq (es : List Employee) (h : es ≠ []) :
    ∃ mx mn,
      (es.map (·.score)).max? = some mx ∧
      (es.map (·.score)).min? = some mn ∧
      calculate_statistics es = some
        { total_employees := es.length
          average_score := round2 (avgQ (es.map (·.score)))
          highest_score := mx
          lowest_score := mn } := by
  have hs : es.map (·.score) ≠ [] := by
    simpa [List.map_eq_nil_iff] using h
  obtain ⟨mx, hmx⟩ := exists_max?_of_ne_nil _ hs
  obtain ⟨mn, hmn⟩ := exists_min?_of_ne_nil _ hs
  refine ⟨mx, mn, hmx, hmn, ?_⟩
  unfold calculate_statistics
  dsimp only
  rw [mean_eq_some _ hs, hmx, hmn]

theorem calculate_statistics_nil : calculate_statistics [] = none := rfl

theorem round2_intCast (n : Int) : round2 ((n : ℚ)) = (n : ℚ) := by
  unfold round2 roundHalfEven
  dsimp only
  have h1 : (n : ℚ) * 100 = ((100 * n : Int) : ℚ) := by push_cast; ring
  rw [h1, Int.floor_intCast]
  rw [if_pos (by simp : ((100 * n : Int) : ℚ) - ((100 * n : Int) : ℚ) < 1/2)]
  push_cast
  ring

/-! ### Claims about the statistics engine -/

/-- C1: For every non-empty list of employee records, the aggregate
statistics returned by `calculate_statistics` satisfy
`lowest_score ≤ average_score ≤ highest_score`, where `lowest_score` and
`highest_score` are the minimum and maximum of the records' scores. -/
theorem claim1_min_le_average_le_max (es : List Employee) (st : Stats)
    (h : calculate_statistics es = some st) :
    (es.map (·.score)).min? = some st.lowest_score ∧
    (es.map (·.score)).max? = some st.highest_score ∧
    (st.lowest_score : ℚ) ≤ st.average_score ∧
    st.average_score ≤ (st.highest_score : ℚ) := by
  have hne : es ≠ [] := by
    rintro rfl
    rw [calculate_statistics_nil] at h
    exact Option.noConfusion h
  obtain ⟨mx, mn, hmx, hmn, heq⟩ := calculate_statistics_eq es hne
  rw [heq] at h
  obtain rfl := (Option.some.inj h)
  have hsne : es.map (·.score) ≠ [] := by simpa [List.map_eq_nil_iff] using hne
  have hlen : 0 < (es.map (·.score)).length := List.length_pos.mpr hsne
  have hlenQ : (0 : ℚ) < (es.map (·.score)).length := by exact_mod_cast hlen
  have hlow : (mn : ℚ) ≤ avgQ (es.map (·.score)) := by
    unfold avgQ
    rw [le_div_iff₀ hlenQ]
    have hsum : ((es.map (·.score)).length : Int) * mn ≤ (es.map (·.score)).sum :=
      length_mul_le_sum _ _ (min?_le_mem _ _ hmn)
    have hc : ((((es.map (·.score)).length : Int) * mn : Int) : ℚ) ≤
        (((es.map (·.score)).sum : Int) : ℚ) := by exact_mod_cast hsum
    push_cast at hc ⊢
    linarith
  have hhigh : avgQ (es.map (·.score)) ≤ (mx : ℚ) := by
    unfold avgQ
    rw [div_le_iff₀ hlenQ]
    have hsum : (es.map (·.score)).sum ≤ ((es.map (·.score)).length : Int) * mx :=
      sum_le_length_mul _ _ (mem_le_max? _ _ hmx)
    have hc : (((es.map (·.score)).sum : Int) : ℚ) ≤
        ((((es.map (·.score)).length : Int) * mx : Int) : ℚ) := by exact_mod_cast hsum
    push_cast at hc ⊢
    linarith
  exact ⟨hmn, hmx, le_round2 _ _ hlow, round2_le _ _ hhigh⟩

theorem claim1_witness :
    (List.map (fun e => e.score) [Employee.mk "a" "A" 80]).min? =
        some (Stats.mk 1 (round2 (avgQ [80])) 80 80).lowest_score ∧
    (List.map (fun e => e.score) [Employee.mk "a" "A" 80]).max? =
        some (Stats.mk 1 (round2 (avgQ [80])) 80 80).highest_score ∧
    ((Stats.mk 1 (round2 (avgQ [80])) 80 80).lowest_score : ℚ) ≤
        (Stats.mk 1 (round2 (avgQ [80])) 80 80).average_score ∧
    (Stats.mk 1 (round2 (avgQ [80])) 80 80).average_score ≤
        ((Stats.mk 1 (round2 (avgQ [80])) 80 80).highest_score : ℚ) :=
  claim1_min_le_average_le_max [Employee.mk "a" "A" 80]
    (Stats.mk 1 (round2 (avgQ [80])) 80 80) rfl

/-- C2: On an empty record list `calculate_statistics` fails (the mean of
zero records is undefined, `statistics.mean` raises) rather than returning
a statistics value. -/
theorem claim2_empty_input_fails :
    calculate_statistics [] = none ∧ mean [] = none :=
  ⟨rfl, rfl⟩

/-- C7: Any record list whose scores are `[80, 90, 70]` yields exactly
`{total_employees := 3, average_score := 80.0, highest_score := 90,
lowest_score := 70}`. -/
theorem claim7_concrete_statistics (es : List Employee)
    (h : es.map (·.score) = [80, 90, 70]) :
    calculate_statistics es =
      some { total_employees := 3, average_score := 80
             highest_score := 90, lowest_score := 70 } := by
  have hne : es ≠ [] := by rintro rfl; simp at h
  obtain ⟨mx, mn, hmx, hmn, heq⟩ := calculate_statistics_eq es hne
  rw [h] at hmx hmn
  have hmx9 : mx = 90 := by
    rw [show ([80, 90, 70] : List Int).max? = some 90 by decide] at hmx
    exact (Option.some.inj hmx).symm
  have hmn7 : mn = 70 := by
    rw [show ([80, 90, 70] : List Int).min? = some 70 by decide] at hmn
    exact (Option.some.inj hmn).symm
  have hlen : es.length = 3 := by
    have := congrArg List.length h
    simpa using this
  have havg : round2 (avgQ [80, 90, 70]) = 80 := by
    have h1 : avgQ [80, 90, 70] = ((80 : Int) : ℚ) := by
      norm_num [avgQ]
    rw [h1, round2_intCast]
    norm_num
  rw [heq, h, hmx9, hmn7, hlen, havg]

theorem claim7_witness :
    calculate_statistics
        [Employee.mk "a" "A" 80, Employee.mk "b" "B" 90, Employee.mk "c" "C" 70] =
      some { total_employees := 3, average_score := 80
             highest_score := 90, lowest_score := 70 } :=
  claim7_concrete_statistics
    [Employee.mk "a" "A" 80, Employee.mk "b" "B" 90, Employee.mk "c" "C" 70] rfl

/-! ### Dictionary lemmas -/

theorem lookupList_nil (k : String) : lookupList ([] : List (String × α)) k = none :=
  rfl

theorem lookupList_cons (k' : String) (v : α) (l : List (String × α)) (k : String) :
    lookupList ((k', v) :: l) k = if k' = k then some v else lookupList l k := by
  by_cases h : k' = k <;> simp [lookupList, List.find?_cons, h]

theorem lookup_updateOrAppend (l : List (String × List Int)) (k : String)
    (s : Int) (d : String) :
    lookupList (updateOrAppend l k s) d =
      if d = k then some (((lookupList l d).getD []) ++ [s])
      else lookupList l d := by
  induction l with
  | nil =>
      by_cases hdk : d = k
      · simp [updateOrAppend, lookupList_cons, hdk, lookupList_nil]
      · simp [updateOrAppend, lookupList_cons, hdk, lookupList_nil, Ne.symm hdk]
  | cons p rest ih =>
      obtain ⟨k', v⟩ := p
      by_cases hk : k' = k
      · subst hk
        by_cases hdk : d = k'
        · subst hdk
          simp [updateOrAppend, lookupList_cons]
        · simp [updateOrAppend, lookupList_cons, hdk, Ne.symm hdk]
      · by_cases hdk : d = k
        · subst hdk
          have hk' : k' ≠ d := fun h => hk h
          simp [updateOrAppend, hk, lookupList_cons, hk', ih]
        · by_cases hdk' : k' = d
          · subst hdk'
            simp [updateOrAppend, hk, lookupList_cons, hdk]
          · simp [updateOrAppend, hk, lookupList_cons, hdk, hdk', ih]

theorem scoresOf_cons (e : Employee) (es : List Employee) (d : String) :
    scoresOf (e :: es) d =
      if e.department = d then e.score :: scoresOf es d else scoresOf es d := by
  by_cases h : e.department = d <;> simp [scoresOf, List.filter_cons, h]

theorem lookup_foldl_dept (es : List Employee) :
    ∀ (acc : List (String × List Int)) (d : String),
      lookupList
        (es.foldl (fun acc emp => updateOrAppend acc emp.department emp.score) acc) d =
      combineScores (lookupList acc d) es d := by
  induction es with
  | nil =>
      intro acc d
      cases h : lookupList acc d <;> simp [combineScores, scoresOf, h]
  | cons e es ih =>
      intro acc d
      rw [List.foldl_cons, ih, lookup_updateOrAppend]
      by_cases hd : d = e.department
      · have hd' : e.department = d := hd.symm
        rw [if_pos hd]
        cases hacc : lookupList acc d with
        | some xs => simp [combineScores, scoresOf_cons, hd', List.any_cons]
        | none => simp [combineScores, scoresOf_cons, hd', List.any_cons]
      · have hd' : e.department ≠ d := fun h => hd h.symm
        rw [if_neg hd]
        cases hacc : lookupList acc d with
        | some xs => simp [combineScores, scoresOf_cons, hd', List.any_cons]
        | none => simp [combineScores, scoresOf_cons, hd', List.any_cons]

theorem lookup_dept_data (es : List Employee) (d : String) :
    lookupList (dept_data es) d =
      if es.any (fun e => e.department = d) then some (scoresOf es d) else none := by
  unfold dept_data
  rw [lookup_foldl_dept es [] d]
  simp [lookupList_nil, combineScores]

theorem lookupList_map_value (l : List (String × β)) (f : β → γ) (k : String) :
    lookupList (l.map (fun p => (p.1, f p.2))) k = (lookupList l k).map f := by
  induction l with
  | nil => simp [lookupList_nil]
  | cons p rest ih =>
      obtain ⟨k', v⟩ := p
      by_cases h : k' = k <;> simp [lookupList_cons, h, ih]

theorem lookup_department_wise_average (es : List Employee) (d : String) :
    lookupList (department_wise_average es) d =
      if es.any (fun e => e.department = d)
      then some (round2 (avgQ (scoresOf es d))) else none := by
  unfold department_wise_average
  rw [lookupList_map_value (dept_data es) (fun v => round2 ((v.sum : ℚ) / v.length)) d,
      lookup_dept_data]
  split_ifs <;> simp [avgQ]

theorem mem_departments_iff_any (es : List Employee) (d : String) :
    d ∈ es.map (·.department) ↔ es.any (fun e => e.department = d) = true := by
  simp [List.mem_map, List.any_eq_true]

/-! ### Key-order lemmas -/

theorem keys_updateOrAppend (l : List (String × List Int)) (k : String) (s : Int) :
    (updateOrAppend l k s).map Prod.fst =
      if k ∈ l.map Prod.fst then l.map Prod.fst else l.map Prod.fst ++ [k] := by
  induction l with
  | nil => simp [updateOrAppend]
  | cons p rest ih =>
      obtain ⟨k', v⟩ := p
      by_cases hk : k' = k
      · subst hk
        simp [updateOrAppend]
      · have hk' : k ≠ k' := fun h => hk h.symm
        by_cases hmem : k ∈ rest.map Prod.fst <;>
          simp [updateOrAppend, hk, hk', hmem, ih, List.mem_cons]

theorem keys_foldl_dept (es : List Employee) :
    ∀ (acc : List (String × List Int)),
      ((es.foldl (fun acc emp => updateOrAppend acc emp.department emp.score) acc).map
        Prod.fst) =
      (es.map (·.department)).foldl
        (fun a x => if x ∈ a then a else a ++ [x]) (acc.map Prod.fst) := by
  induction es with
  | nil => intro acc; simp
  | cons e es ih =>
      intro acc
      rw [List.map_cons, List.foldl_cons, List.foldl_cons, ih, keys_updateOrAppend]

theorem keys_dept_data (es : List Employee) :
    (dept_data es).map Prod.fst = firstSeen (es.map (·.department)) := by
  unfold dept_data firstSeen
  simpa using keys_foldl_dept es []

theorem keys_department_wise_average (es : List Employee) :
    (department_wise_average es).map Prod.fst = (dept_data es).map Prod.fst := by
  simp [department_wise_average, List.map_map]

theorem nodup_foldl_insert (l : List String) :
    ∀ acc : List String, acc.Nodup →
      (l.foldl (fun a x => if x ∈ a then a else a ++ [x]) acc).Nodup := by
  induction l with
  | nil => intro acc h; simpa using h
  | cons b t ih =>
      intro acc h
      rw [List.foldl_cons]
      apply ih
      by_cases hb : b ∈ acc
      · simpa [hb] using h
      · simp [hb, List.nodup_append, h]

theorem mem_foldl_insert (l : List String) :
    ∀ (acc : List String) (x : String),
      x ∈ l.foldl (fun a x => if x ∈ a then a else a ++ [x]) acc ↔
        x ∈ acc ∨ x ∈ l := by
  induction l with
  | nil => intro acc x; simp
  | cons b t ih =>
      intro acc x
      rw [List.foldl_cons, ih]
      by_cases hb : b ∈ acc
      · simp only [if_pos hb, List.mem_cons]
        constructor
        · rintro (h | h)
          · exact Or.inl h
          · exact Or.inr (Or.inr h)
        · rintro (h | rfl | h)
          · exact Or.inl h
          · exact Or.inl hb
          · exact Or.inr h
      · simp only [if_neg hb, List.mem_append, List.mem_cons, List.mem_singleton]
        tauto

theorem firstSeen_nodup (l : List String) : (firstSeen l).Nodup :=
  nodup_foldl_insert l [] List.nodup_nil

theorem mem_firstSeen (l : List String) (x : String) :
    x ∈ firstSeen l ↔ x ∈ l := by
  unfold firstSeen
  rw [mem_foldl_insert]
  simp

/-! ### Claims about the department averages -/

/-- C3: For every record list and every department `d` occurring in it,
`department_wise_average` assigns to `d` exactly the `average_score` that
`calculate_statistics` computes over the records whose department is `d`. -/
theorem claim3_dept_average_matches_aggregate (es : List Employee) (d : String)
    (h : d ∈ es.map (·.department)) :
    lookupList (department_wise_average es) d =
      (calculate_statistics (es.filter (fun e => e.department = d))).map
        (fun st => st.average_score) ∧
    (calculate_statistics (es.filter (fun e => e.department = d))).isSome = true := by
  have hany := (mem_departments_iff_any es d).mp h
  have hne : es.filter (fun e => e.department = d) ≠ [] := by
    obtain ⟨e, he, hed⟩ := List.mem_map.mp h
    intro hnil
    have hmem : e ∈ es.filter (fun e => e.department = d) :=
      List.mem_filter.mpr ⟨he, by simp [hed]⟩
    rw [hnil] at hmem
    exact absurd hmem (List.not_mem_nil e)
  obtain ⟨mx, mn, hmx, hmn, heq⟩ := calculate_statistics_eq _ hne
  rw [heq]
  refine ⟨?_, rfl⟩
  rw [lookup_department_wise_average, if_pos hany]
  rfl

theorem claim3_witness :
    lookupList (department_wise_average [Employee.mk "a" "A" 80]) "A" =
      (calculate_statistics
        (([Employee.mk "a" "A" 80]).filter (fun e => e.department = "A"))).map
          (fun st => st.average_score) ∧
    (calculate_statistics
      (([Employee.mk "a" "A" 80]).filter (fun e => e.department = "A"))).isSome = true :=
  claim3_dept_average_matches_aggregate [Employee.mk "a" "A" 80] "A" (by decide)

/-- C6: The mapping returned by `department_wise_average` has exactly one
entry per distinct department occurring in the records, and its key order
is the order in which each department first appears in the input. -/
theorem claim6_keys_first_seen (es : List Employee) :
    (department_wise_average es).map Prod.fst = firstSeen (es.map (·.department)) ∧
    ((department_wise_average es).map Prod.fst).Nodup ∧
    ∀ d, d ∈ (department_wise_average es).map Prod.fst ↔
      d ∈ es.map (·.department) := by
  have hk : (department_wise_average es).map Prod.fst =
      firstSeen (es.map (·.department)) := by
    rw [keys_department_wise_average, keys_dept_data]
  refine ⟨hk, ?_, ?_⟩
  · rw [hk]
    exact firstSeen_nodup _
  · intro d
    rw [hk]
    exact mem_firstSeen _ d

/-- C8: For a record list whose departments partition the scores as
`{A: [80, 90], B: [70]}`, `department_wise_average` maps `A` to `85.0`,
`B` to `70.0`, and has no other key. -/
theorem claim8_two_departments (es : List Employee)
    (hA : (es.filter (fun e => e.department = "A")).map (·.score) = [80, 90])
    (hB : (es.filter (fun e => e.department = "B")).map (·.score) = [70])
    (hAll : ∀ e ∈ es, e.department = "A" ∨ e.department = "B") :
    lookupList (department_wise_average es) "A" = some 85 ∧
    lookupList (department_wise_average es) "B" = some 70 ∧
    ∀ d, d ∈ (department_wise_average es).map Prod.fst →
      d = "A" ∨ d = "B" := by
  have hAany : es.any (fun e => e.department = "A") = true := by
    have hne : es.filter (fun e => e.department = "A") ≠ [] := by
      intro hnil
      rw [hnil] at hA
      exact absurd hA (by simp)
    obtain ⟨e, he⟩ := List.exists_mem_of_ne_nil _ hne
    obtain ⟨he1, he2⟩ := List.mem_filter.mp he
    rw [List.any_eq_true]
    exact ⟨e, he1, he2⟩
  have hBany : es.any (fun e => e.department = "B") = true := by
    have hne : es.filter (fun e => e.department = "B") ≠ [] := by
      intro hnil
      rw [hnil] at hB
      exact absurd hB (by simp)
    obtain ⟨e, he⟩ := List.exists_mem_of_ne_nil _ hne
    obtain ⟨he1, he2⟩ := List.mem_filter.mp he
    rw [List.any_eq_true]
    exact ⟨e, he1, he2⟩
  refine ⟨?_, ?_, ?_⟩
  · rw [lookup_department_wise_average, if_pos hAany]
    have hs : scoresOf es "A" = [80, 90] := hA
    rw [hs]
    have h1 : avgQ [80, 90] = ((85 : Int) : ℚ) := by norm_num [avgQ]
    rw [h1, round2_intCast]
    norm_num
  · rw [lookup_department_wise_average, if_pos hBany]
    have hs : scoresOf es "B" = [70] := hB
    rw [hs]
    have h1 : avgQ [70] = ((70 : Int) : ℚ) := by norm_num [avgQ]
    rw [h1, round2_intCast]
    norm_num
  · intro d hd
    rw [keys_department_wise_average, keys_dept_data, mem_firstSeen] at hd
    obtain ⟨e, he, hed⟩ := List.mem_map.mp hd
    rcases hAll e he with h | h
    · exact Or.inl (hed ▸ h)
    · exact Or.inr (hed ▸ h)

theorem claim8_witness :
    lookupList (department_wise_average
      [Employee.mk "a" "A" 80, Employee.mk "b" "A" 90, Employee.mk "c" "B" 70])
      "A" = some 85 ∧
    lookupList (department_wise_average
      [Employee.mk "a" "A" 80, Employee.mk "b" "A" 90, Employee.mk "c" "B" 70])
      "B" = some 70 :=
  ⟨(claim8_two_departments
      [Employee.mk "a" "A" 80, Employee.mk "b" "A" 90, Employee.mk "c" "B" 70]
      (by decide) (by decide) (by decide)).1,
   (claim8_two_departments
      [Employee.mk "a" "A" 80, Employee.mk "b" "A" 90, Employee.mk "c" "B" 70]
      (by decide) (by decide) (by decide)).2.1⟩

/-! ### CSV loading claims -/

theorem parseRow_error_of_malformed (row : Row) (h : rowMalformed row = true) :
    ∃ e, parseRow row = .error e := by
  cases hn : lookupList row "Name" with
  | none => exact ⟨"KeyError: Name", by simp [parseRow, hn]⟩
  | some n =>
    cases hd : lookupList row "Department" with
    | none => exact ⟨"KeyError: Department", by simp [parseRow, hn, hd]⟩
    | some d =>
      cases hs : lookupList row "Score" with
      | none => exact ⟨"KeyError: Score", by simp [parseRow, hn, hd, hs]⟩
      | some s =>
        cases hp : parseIntPy s with
        | none =>
            exact ⟨"ValueError: invalid literal for int() with base 10",
              by simp [parseRow, hn, hd, hs, hp]⟩
        | some v =>
            exfalso
            simp [rowMalformed, hn, hd, hs, hp] at h

theorem read_csv_data_error (rows : List Row)
    (h : ∃ row ∈ rows, rowMalformed row = true) :
    ∃ e, read_csv_data rows = .error e := by
  induction rows with
  | nil => simp at h
  | cons r rs ih =>
      obtain ⟨row, hmem, hbad⟩ := h
      rcases List.mem_cons.mp hmem with rfl | hmem'
      · obtain ⟨e, he⟩ := parseRow_error_of_malformed row hbad
        exact ⟨e, by simp [read_csv_data, he]⟩
      · cases hp : parseRow r with
        | error e => exact ⟨e, by simp [read_csv_data, hp]⟩
        | ok emp =>
            obtain ⟨e, he⟩ := ih ⟨row, hmem', hbad⟩
            exact ⟨e, by simp [read_csv_data, hp, he]⟩

/-- C4: If any input row misses a required column or has a `Score` that
does not parse as a base-10 integer, loading fails with an error that
aborts the whole run: `read_csv_data` returns no record list, and
`generate_report` on that input aborts with the error among its
diagnostics (no statistics, no output document). -/
theorem claim4_malformed_row_aborts (rows : List Row) (today : String)
    (h : ∃ row ∈ rows, rowMalformed row = true) :
    ∃ e, read_csv_data rows = .error e ∧
      generate_report ⟨some rows, today⟩ =
        .aborted ["data.csv found successfully.", e] := by
  obtain ⟨e, he⟩ := read_csv_data_error rows h
  exact ⟨e, he, by simp [generate_report, he]⟩

theorem claim4_witness :
    ∃ e, read_csv_data [[("Name", "x"), ("Department", "A"), ("Score", "abc")]] =
        .error e ∧
      generate_report
          ⟨some [[("Name", "x"), ("Department", "A"), ("Score", "abc")]],
           "October 12, 2025"⟩ =
        .aborted ["data.csv found successfully.", e] :=
  claim4_malformed_row_aborts
    [[("Name", "x"), ("Department", "A"), ("Score", "abc")]]
    "October 12, 2025" (by decide)

/-! ### Pipeline claims -/

/-- C5: When the input file does not exist, the pipeline terminates at the
existence check, after printing only the missing-file diagnostic: no
loading, statistics, or rendering happens and no output is written. -/
theorem claim5_missing_input_aborts (env : Env) (h : env.dataFile = none) :
    generate_report env = .aborted ["ERROR: data.csv not found!"] := by
  unfold generate_report
  rw [h]

theorem claim5_witness :
    generate_report ⟨none, "October 12, 2025"⟩ =
      .aborted ["ERROR: data.csv not found!"] :=
  claim5_missing_input_aborts ⟨none, "October 12, 2025"⟩ rfl

theorem renderDoc_eraseIdx_one (t1 t2 : String) (st : Stats)
    (dept : List (String × ℚ)) (emps : List Employee) :
    (renderDoc t1 st dept emps).eraseIdx 1 = (renderDoc t2 st dept emps).eraseIdx 1 := by
  simp [renderDoc]

theorem renderDoc_get_one (t : String) (st : Stats)
    (dept : List (String × ℚ)) (emps : List Employee) :
    (renderDoc t st dept emps).get? 1 = some (dateLine t) := rfl

/-- C9: Two runs over the same input file contents produce identical
diagnostics and identical output documents except for the metadata date
line (which sits at index 1 of the document). -/
theorem claim9_deterministic_up_to_date (env1 env2 : Env)
    (h : env1.dataFile = env2.dataFile) :
    stripDate (generate_report env1) = stripDate (generate_report env2) ∧
    (∀ ds o, generate_report env1 = .finished ds o →
      o.get? 1 = some (dateLine env1.today)) ∧
    (∀ ds o, generate_report env2 = .finished ds o →
      o.get? 1 = some (dateLine env2.today)) := by
  unfold generate_report
  rw [← h]
  cases hdf : env1.dataFile with
  | none => simp [stripDate]
  | some rows =>
    cases hread : read_csv_data rows with
    | error e => simp [stripDate, hread]
    | ok emps =>
      cases hstats : calculate_statistics emps with
      | none => simp [stripDate, hread, hstats]
      | some st =>
        simp only [hread, hstats]
        refine ⟨?_, ?_, ?_⟩
        · simp only [stripDate]
          rw [renderDoc_eraseIdx_one env1.today env2.today]
        · intro ds o ho
          simp only [RunResult.finished.injEq] at ho
          rw [← ho.2, renderDoc_get_one]
        · intro ds o ho
          simp only [RunResult.finished.injEq] at ho
          rw [← ho.2, renderDoc_get_one]

theorem claim9_witness :
    stripDate (generate_report
        ⟨some [[("Name", "x"), ("Department", "A"), ("Score", "80")]],
         "October 12, 2025"⟩) =
      stripDate (generate_report
        ⟨some [[("Name", "x"), ("Department", "A"), ("Score", "80")]],
         "January 01, 2026"⟩) :=
  (claim9_deterministic_up_to_date
    ⟨some [[("Name", "x"), ("Department", "A"), ("Score", "80")]],
     "October 12, 2025"⟩
    ⟨some [[("Name", "x"), ("Department", "A"), ("Score", "80")]],
     "January 01, 2026"⟩ rfl).1

/-! ### Frame-effect claim -/

theorem foldlS_pair (l : List Employee) :
    ∀ (acc : List (String × List Int)) (st : List Employee),
      l.foldl (fun p emp => (updateOrAppend p.1 emp.department emp.score, p.2))
        (acc, st) =
      (l.foldl (fun a emp => updateOrAppend a emp.department emp.score) acc, st) := by
  induction l with
  | nil => intros; rfl
  | cons e t ih =>
      intro acc st
      rw [List.foldl_cons, List.foldl_cons]
      exact ih _ _

/-- C10: `calculate_statistics` and `department_wise_average` leave their
input record list unchanged: in the store-threading embeddings the store
component returned is the input list itself, and the value component is
the same result as the pure functions. -/
theorem claim10_inputs_unchanged (es : List Employee) :
    (calculate_statisticsS es).2 = es ∧
    (department_wise_averageS es).2 = es ∧
    (calculate_statisticsS es).1 = calculate_statistics es ∧
    (department_wise_averageS es).1 = department_wise_average es := by
  have hb := foldlS_pair es [] es
  refine ⟨rfl, ?_, rfl, ?_⟩
  · unfold department_wise_averageS
    rw [hb]
  · unfold department_wise_averageS department_wise_average dept_data
    rw [hb]

end ReportGen
